import Mathlib

/-!
Shallow embedding of the `slog_gorm_color` repository (a colorized
`log/slog` text handler plus a context-enrichment middleware) and proofs
of the frozen claims about it.

Conventions of the embedding:
* Go strings are Lean `String`s (sequences of Unicode code points); the
  source only ever indexes bytes below 128 or decodes whole runes, so on
  valid UTF-8 input per-`Char` iteration coincides with the source's
  byte/rune loop.
* The `unicode` / `strconv` classification tables for code points at or
  above 128 (`unicode.IsPrint`, `unicode.IsSpace`, `unicode.IsLetter`,
  `strconv.IsPrint`) are passed explicitly as a `UTab` parameter; for
  code points below 128 the embedding hard-codes the concrete behaviour
  of those functions, mirroring the source's dedicated ASCII paths.
* Machine integers (`int`, `int64`, `time.Duration` in nanoseconds,
  `slog.Level`) are `Int`; `uint64` is `Nat`. None of the claims involve
  arithmetic that overflows, and the source performs no wrapping
  arithmetic on them.
* The output sink `io.Writer` is modelled as an opaque identity (`Nat`),
  which is all the sharing claims need; the mutex only guards the final
  write and has no rendering semantics.
-/

namespace SlogGorm

/-! ## ANSI color constants (source: the `const` block of the handler file) -/

def Reset        : String := "\x1b[0m"
def Red          : String := "\x1b[31m"
def Faint        : String := "\x1b[90m"
def Green        : String := "\x1b[32m"
def Yellow       : String := "\x1b[33m"
def YellowBack   : String := "\x1b[43m"
def Blue         : String := "\x1b[34m"
def Magenta      : String := "\x1b[35m"
def Cyan         : String := "\x1b[36m"
def BrightGreen  : String := "\x1b[92m"
def BrightYellow : String := "\x1b[93m"

/-- The rune `ansiEsc = '\u001b'` from the source. -/
def ansiEsc : Char := '\x1b'

/-- Unicode/strconv classification tables for code points `≥ 128`,
passed to the embedding explicitly.  The source consults
`unicode.IsSpace`, `unicode.IsPrint`, `unicode.IsLetter` and (inside
`strconv.Quote`) `strconv.IsPrint`; below 128 their behaviour is
hard-coded in the embedding, so these fields are only ever applied to
code points at or above 128 (except `isLetter`, whose ASCII part is
also hard-coded at its use site). -/
structure UTab where
  isPrint : Nat → Bool
  isSpace : Nat → Bool
  isLetter : Nat → Bool
  isPrintStrconv : Nat → Bool

/-- One concrete instantiation of the tables, used by closed
counterexamples and witnesses whose strings are pure ASCII (the tables
are never consulted below 128, so any instantiation gives the same
result there). -/
def asciiTab : UTab :=
  { isPrint := fun _ => true
  , isSpace := fun _ => false
  , isLetter := fun _ => false
  , isPrintStrconv := fun _ => true }

/-- Translation of the source's `safeSet` table (`var safeSet
[utf8.RuneSelf]bool`).  The table lists exactly the printable ASCII
range 0x20–0x7E with `'"'` and `'\\'` set to `false`, plus `0x7F` and
`0x1B` set to `true`; every entry the literal does not mention is the
zero value `false`. -/
def safeSet (b : Nat) : Bool :=
  if b = 34 ∨ b = 92 then false
  else if 32 ≤ b ∧ b ≤ 126 then true
  else b = 127 ∨ b = 27

/-- Per-character test of the source's `needsQuoting` loop.  For a byte
`b < utf8.RuneSelf` the source tests
`b != '\\' && (b == ' ' || b == '=' || !safeSet[b])`; for a decoded rune
it tests `r == utf8.RuneError || unicode.IsSpace(r) || !unicode.IsPrint(r)`.
`utf8.DecodeRuneInString` yields `utf8.RuneError` (U+FFFD) not only for
invalid UTF-8 (which a valid Lean string cannot contain) but also for a
VALIDLY ENCODED literal U+FFFD, so the disjunct fires exactly on the
replacement character here. -/
def needsQuotingChar (U : UTab) (c : Char) : Bool :=
  if c.toNat < 128 then
    decide (c ≠ '\\') && (decide (c = ' ') || decide (c = '=') || !safeSet c.toNat)
  else
    decide (c.toNat = 65533) || U.isSpace c.toNat || !U.isPrint c.toNat

/-- Translation of `needsQuoting` (handler file): `true` for the empty
string, otherwise `true` iff some character of the string triggers the
per-character test. -/
def needsQuoting (U : UTab) (s : String) : Bool :=
  if s.length = 0 then true
  else s.data.any (needsQuotingChar U)

/-! ## Claim-side characterizations of `needsQuoting` (claim C3)

These two definitions follow the CLAIM's words, not the source; they are
compared against the source-translated `needsQuoting` above. -/

/-- Character test following claim C3's words verbatim: a space, an `=`,
a character outside the fixed safe-printable-ASCII set, or a
non-printable or space Unicode code point (at or above 128, where the
Unicode classes are consulted). -/
def claimBadChar (U : UTab) (c : Char) : Bool :=
  decide (c = ' ') || decide (c = '=')
    || (decide (c.toNat < 128) && !safeSet c.toNat)
    || (decide (128 ≤ c.toNat) && (U.isSpace c.toNat || !U.isPrint c.toNat))

/-- Claim C3's predicate: quoting is required exactly when the string is
empty or contains a bad character in the sense of `claimBadChar`. -/
def claimNeedsQuoting (U : UTab) (s : String) : Bool :=
  decide (s = "") || s.data.any (claimBadChar U)

/-- Character test of the AMENDED claim C3: as `claimBadChar`, except
that a backslash never requires quoting (the source exempts `'\\'`
explicitly even though `safeSet['\\'] = false`) and that the
replacement character U+FFFD always does (the source's
`r == utf8.RuneError` disjunct, which fires on a literal U+FFFD). -/
def amendedBadChar (U : UTab) (c : Char) : Bool :=
  decide (c = ' ') || decide (c = '=')
    || (decide (c.toNat < 128) && decide (c ≠ '\\') && !safeSet c.toNat)
    || (decide (128 ≤ c.toNat)
        && (decide (c.toNat = 65533) || U.isSpace c.toNat || !U.isPrint c.toNat))

/-! ## Data model: records, attributes, values, context -/

/-- The `slog.Source` descriptor: function name, file path, line. -/
structure SourceDesc where
  function : String
  file : String
  line : Int
deriving DecidableEq

/-- The payload of a `slog.KindAny` value, as the handler's
`appendValue` distinguishes it.  Constructors mirror the arms of the
`switch cv := v.Any().(type)` plus the recover path:

* `nilAny` — the nil interface (the zero `slog.Value`); the type switch
  falls to `default` and `fmt.Sprintf("%+v", nil)` yields `<nil>`.
* `level l` — a `slog.Level`.
* `marshalText r` — an `encoding.TextMarshaler` whose `MarshalText`
  returns `r` (`none` models a non-nil error: the `break` appends
  nothing).
* `srcDesc s` — a non-nil `*slog.Source`.
* `logErr m` — the repository's `logError` wrapper with message `m`
  (intercepted by `appendAttr` before `appendValue`; reaching
  `appendValue` it would print its `Error()` text via `%+v`).
* `fmtStr s` — any other value, where `s` is its `fmt.Sprintf("%+v", ·)`
  rendering.
* `panics isNilPtr msg` — a value whose encoding panics with message
  `msg` (e.g. a nil `*slog.Source` dereferenced by `appendSource`, or a
  panicking `MarshalText`); `isNilPtr` records whether
  `reflect.ValueOf(v.Any())` is a nil pointer.  In every such arm the
  panic fires before any byte is appended, so the recover path appends
  only the placeholder. -/
inductive AnyVal where
  | nilAny
  | level (l : Int)
  | marshalText (r : Option String)
  | srcDesc (s : SourceDesc)
  | logErr (msg : String)
  | fmtStr (s : String)
  | panics (isNilPtr : Bool) (msg : String)

/-- A `slog.Value`, restricted to the kinds the handler renders.
`KindFloat64` and `KindLogValuer` are not modelled (no claim touches
them; with no `LogValuer` kind, `Value.Resolve` is the identity).
`time t` carries the `v.Time().String()` text, which no claim
inspects. -/
inductive Value where
  | str (s : String)
  | int64 (i : Int)
  | uint64 (n : Nat)
  | bool (b : Bool)
  | duration (d : Int)
  | time (t : String)
  | group (attrs : List (String × Value))
  | any (a : AnyVal)

/-- A `slog.Attr`: key paired with value. -/
abbrev Attr := String × Value

/-- Whether a value equals the zero `slog.Value` (kind `KindAny`
holding the nil interface; `Value.Equal` first compares kinds, then on
`KindAny` the interfaces themselves). -/
def Value.isNilAny : Value → Bool
  | Value.any AnyVal.nilAny => true
  | _ => false

/-- The source's `attr.Equal(slog.Attr{})` test: key equal to the empty
string and value equal to the zero `slog.Value`. -/
def isZeroAttr (a : Attr) : Bool :=
  decide (a.1 = "") && Value.isNilAny a.2

/-- A value stored in the `context.Context` under one of the recognized
keys.  `dur d` is a `time.Duration`; `src s` is a `slog.Source` value
(as the ORM trace adapter stores it); `int i` covers the `int64` row
count; `other r` is any other value, carried as its `fmt.Sprintf("%v",·)`
text `r`. -/
inductive CtxVal where
  | str (s : String)
  | int (i : Int)
  | dur (d : Int)
  | src (s : SourceDesc)
  | other (text : String)

/-- A `context.Context`, as the handler reads it: a partial map from
key to value (`none` = `ctx.Value` returns nil). -/
abbrev Ctx := String → Option CtxVal

/-- Model of `time.Duration.String` (the `%v` rendering of a duration).
No claim depends on this text; the model renders the raw nanosecond
count with an `ns` unit rather than reproducing `time.Duration`'s
unit-scaling algorithm. -/
def durationString (d : Int) : String := toString d ++ "ns"

/-- Model of `strconv.FormatFloat(c.Seconds(), 'f', 4, 64)` used for
the SQL duration block: the duration in seconds with four decimal
places (rounding at the fourth decimal; the `float64` division's exact
rounding is not reproduced bit-for-bit — no claim depends on the
digits, only on the color wrapping them). -/
def formatSeconds4 (d : Int) : String :=
  let a := d.natAbs
  let scaled := (a + 50000) / 100000
  let whole := scaled / 10000
  let frac := scaled % 10000
  let fracStr := toString frac
  (if d < 0 then "-" else "") ++ toString whole ++ "."
    ++ String.mk (List.replicate (4 - fracStr.length) '0') ++ fracStr

/-- The `fmt.Sprintf("%v", ·)` rendering of a context value
(a `slog.Source` struct prints as `\x7bFunction File Line\x7d`). -/
def CtxVal.format : CtxVal → String
  | .str s => s
  | .int i => toString i
  | .dur d => durationString d
  | .src s => "\x7b" ++ s.function ++ " " ++ s.file ++ " " ++ toString s.line ++ "\x7d"
  | .other t => t

/-- The conversion `slog.AnyValue` performs when the middleware calls
`rec.Add(key, c)` on a context value: strings, `int64` and
`time.Duration` get their dedicated kinds; a `slog.Source` struct value
and anything else land in `KindAny` (rendered through `%+v`). -/
def CtxVal.toValue : CtxVal → Value
  | .str s => Value.str s
  | .int i => Value.int64 i
  | .dur d => Value.duration d
  | .src s => Value.any (AnyVal.fmtStr
      ("\x7bFunction:" ++ s.function ++ " File:" ++ s.file
        ++ " Line:" ++ toString s.line ++ "\x7d"))
  | .other t => Value.any (AnyVal.fmtStr t)

/-- The recognized context keys (`const` block of logger.go). -/
def Source : String := "source"

/-- Context key for the elapsed duration of a traced query. -/
def Duration : String := "duration"

/-- Context key for the row count of a traced query. -/
def Rows : String := "rows"

/-- Context key for the SQL text of a traced query. -/
def Sql : String := "sql"

/-! ## slog levels -/

def LevelDebug : Int := -4

def LevelInfo : Int := 0

def LevelWarn : Int := 4

def LevelError : Int := 8

/-- The inner helper of `slog.Level.String`: base name plus `%+d`
offset when the offset is non-zero. -/
def levelBase (base : String) (val : Int) : String :=
  if val = 0 then base
  else if 0 < val then base ++ "+" ++ toString val
  else base ++ toString val

/-- Translation of `slog.Level.String` (called by `appendLevel`). -/
def levelString (l : Int) : String :=
  if l < LevelInfo then levelBase "DEBUG" (l - LevelDebug)
  else if l < LevelWarn then levelBase "INFO" (l - LevelInfo)
  else if l < LevelError then levelBase "WARN" (l - LevelWarn)
  else levelBase "ERROR" (l - LevelError)

/-! ## Path helpers (`path/filepath` on Unix) -/

/-- Model of `filepath.Split`: the text up to and including the final
slash, and the remainder. -/
def splitPath (p : String) : String × String :=
  let rev := p.data.reverse
  (String.mk (rev.dropWhile (· ≠ '/')).reverse,
   String.mk (rev.takeWhile (· ≠ '/')).reverse)

/-- Model of `filepath.Base` on Unix: empty path gives `"."`, trailing
slashes are stripped, then everything up to the final slash is
dropped; an all-slash path gives `"/"`. -/
def baseName (p : String) : String :=
  if p = "" then "."
  else
    let t := (p.data.reverse.dropWhile (· = '/')).reverse
    let f := (t.reverse.takeWhile (· ≠ '/')).reverse
    if f.isEmpty then "/" else String.mk f

/-- Model of `path.Join` for two elements on the argument shapes
arising here (a directory base name and a file name, neither holding
dot segments or duplicate slashes, so `path.Clean` is the identity on
the joined text). -/
def pathJoin (a b : String) : String :=
  if a = "" ∧ b = "" then ""
  else if a = "" then b
  else if b = "" then a
  else a ++ "/" ++ b

/-! ## Quoting: `strconv.Quote` and the ANSI-stripping `cut` -/

/-- Lowercase hexadecimal digit, as `strconv`'s `lowerhex`. -/
def lowerHexDigit (n : Nat) : Char :=
  if n < 10 then Char.ofNat (48 + n) else Char.ofNat (87 + n)

/-- Fixed-width lowercase hexadecimal rendering. -/
def hexFixed (width n : Nat) : String :=
  String.mk ((List.range width).map
    (fun i => lowerHexDigit (n / 16 ^ (width - 1 - i) % 16)))

/-- Per-rune step of `strconv.Quote`: `"` and `\` get a backslash;
printable runes (`strconv.IsPrint`, hard-coded as 0x20–0x7E below 128,
the `UTab` table above) pass through; the named control escapes, then
`\xHH` for other bytes below 0x20 or 0x7F, `\uHHHH` / `\UHHHHHHHH`
beyond (a Lean `Char` is always a valid rune). -/
def goQuoteChar (U : UTab) (c : Char) : String :=
  if c = '"' ∨ c = '\\' then String.mk ['\\', c]
  else if (if c.toNat < 128 then decide (32 ≤ c.toNat ∧ c.toNat ≤ 126)
           else U.isPrintStrconv c.toNat) then String.singleton c
  else if c.toNat = 7 then "\\a"
  else if c.toNat = 8 then "\\b"
  else if c.toNat = 12 then "\\f"
  else if c.toNat = 10 then "\\n"
  else if c.toNat = 13 then "\\r"
  else if c.toNat = 9 then "\\t"
  else if c.toNat = 11 then "\\v"
  else if c.toNat < 32 ∨ c.toNat = 127 then "\\x" ++ hexFixed 2 c.toNat
  else if c.toNat < 65536 then "\\u" ++ hexFixed 4 c.toNat
  else "\\U" ++ hexFixed 8 c.toNat

/-- Model of `strconv.Quote` (also `strconv.AppendQuote`'s text). -/
def goQuote (U : UTab) (s : String) : String :=
  "\"" ++ s.data.foldl (fun acc c => acc ++ goQuoteChar U c) "" ++ "\""

/-- Model of the source's `cut` helper generalized over the closure's
captured state: walks the runes left to right, dropping a rune when the
step function says so and threading the state (the Go closure mutates
its captured variable).  The source `break`s when
`utf8.DecodeRuneInString` yields `utf8.RuneError`; on a valid Lean
string that happens exactly at a literal U+FFFD, truncating the rest
before the predicate is consulted. -/
def cut {σ : Type} (f : σ → Char → σ × Bool) : σ → List Char → List Char
  | _, [] => []
  | st, c :: rest =>
    if c.toNat = 65533 then []
    else
      let p := f st c
      if p.2 then cut f p.1 rest else c :: cut f p.1 rest

/-- `unicode.IsLetter`, hard-coded on ASCII. -/
def uIsLetter (U : UTab) (c : Char) : Bool :=
  if c.toNat < 128 then c.isAlpha else U.isLetter c.toNat

/-- The stateful closure `appendString` passes to `cut`: tracks
`inEscape` and drops every rune of an ANSI escape run (the ESC rune up
to and including the next letter). -/
def ansiCutStep (U : UTab) (inEscape : Bool) (r : Char) : Bool × Bool :=
  if r = ansiEsc then (true, true)
  else if inEscape ∧ uIsLetter U r then (false, true)
  else (inEscape, inEscape)

/-- Translation of `appendString` (handler file): in the
quoted-colorless case ANSI escape runs are stripped first; then, when
quoting is required, the color-aware path re-materializes escaped
`\x1b` sequences as literal ESC runes, the colorless path appends the
plain quoted literal, and otherwise the string passes through
verbatim. -/
def appendString (U : UTab) (buf s : String) (quote color : Bool) : String :=
  let s := if quote ∧ ¬ color
    then String.mk (cut (fun st r => ansiCutStep U st r) false s.data)
    else s
  let q := quote && needsQuoting U s
  if color && q then
    buf ++ String.replace (goQuote U s) "\\x1b" (String.singleton ansiEsc)
  else if !color && q then
    buf ++ goQuote U s
  else buf ++ s

/-! ## Caller resolver: `getFuncNameSlog` (logger.go) -/

/-- Model of `strings.HasPrefix`. -/
def goHasPrefix (s pre : String) : Bool :=
  pre.data.isPrefixOf s.data

/-- Model of `strings.Split(s, ".")`: the list of substrings between
dots.  `strings.Split` of the empty string with a non-empty separator
is `[""]`, and in general the result has one more element than the
number of separators; this structural definition reproduces that. -/
def splitDot (l : List Char) : List String :=
  match l with
  | [] => [""]
  | c :: rest =>
    let r := splitDot rest
    if c = '.' then "" :: r
    else
      match r with
      | [] => [String.mk [c]]
      | hd :: tl => String.mk (c :: hd.data) :: tl

/-- Model of `strconv.Atoi` (= `strconv.ParseInt(s, 10, 0)` with the
64-bit `int`): an optional single leading sign, then at least one
decimal digit, value within `[-2^63, 2^63-1]`; anything else is an
error (`none`).  On overflow `ParseInt` returns an error, so `Atoi`'s
`err == nil` test fails. -/
def goAtoi (s : String) : Option Int :=
  match s.data with
  | [] => none
  | c :: rest =>
    let neg := c = '-'
    let ds := if c = '-' ∨ c = '+' then rest else c :: rest
    if ds = [] then none
    else if ds.all Char.isDigit then
      let n : Nat := ds.foldl (fun a d => a * 10 + (d.toNat - 48)) 0
      if neg then
        if n ≤ 2 ^ 63 then some (-(n : Int)) else none
      else
        if n < 2 ^ 63 then some (n : Int) else none
    else none

/-- A path segment the source's loop absorbs into the dotted suffix:
`strings.HasPrefix(arr[i], "func")` or `strconv.Atoi(arr[i])`
succeeding (`err == nil`). -/
def isSyntheticSeg (seg : String) : Bool :=
  goHasPrefix seg "func" || (goAtoi seg).isSome

/-- The `for i := len(arr) - 1; i >= 0; i--` loop of `getFuncNameSlog`,
walking the reversed segment list: a synthetic segment is prepended
(with a dot) to the accumulated suffix and the walk continues;
the first other segment is prepended without a dot and the walk stops
(`break`).  If every segment is synthetic the loop ends with only the
dotted suffix. -/
def funcNameLoop : List String → String → String
  | [], acc => acc
  | seg :: rest, acc =>
    if isSyntheticSeg seg then funcNameLoop rest ("." ++ seg ++ acc)
    else seg ++ acc

/-- Translation of `getFuncNameSlog` (logger.go): split the fully
qualified name on `.` and reduce it with `funcNameLoop` from the end;
the `len(arr) == 0` guard of the source is unreachable
(`splitDot_ne_nil`) but kept. -/
def getFuncNameSlog (pathFunc : String) : String :=
  let arr := splitDot pathFunc.data
  if arr = [] then pathFunc
  else funcNameLoop arr.reverse ""

/-- Claim C7's notion of a synthetic segment, following its words:
numeric-only (all decimal digits, non-empty) or literally prefixed with
`func`.  This definition follows the claim, not the source; it is
compared with `isSyntheticSeg`. -/
def claimSyntheticSeg (seg : String) : Bool :=
  goHasPrefix seg "func" || (!seg.data.isEmpty && seg.data.all Char.isDigit)

/-- Claim C7's reduction, following its words with `claimSyntheticSeg`
in place of the source's `Atoi` test. -/
def claimFuncNameLoop : List String → String → String
  | [], acc => acc
  | seg :: rest, acc =>
    if claimSyntheticSeg seg then claimFuncNameLoop rest ("." ++ seg ++ acc)
    else seg ++ acc

/-- Claim C7's full reduction function, following its words. -/
def claimReduce (pathFunc : String) : String :=
  claimFuncNameLoop (splitDot pathFunc.data).reverse ""

/-! ## The dev handler (`handlerTextColor`) -/

/-- The construction options (`Options` struct). -/
structure Options where
  AddCxtAttr : List String
  W : Nat
  Source : Bool
  SlowThreshold : Int

/-- The dev handler's state (`handlerTextColor` struct).  The output
sink `w` is modelled by an opaque identity; the mutex `mu` guards only
the final sink write and carries no rendering semantics, so it is not
modelled. -/
structure handlerTextColor where
  source : Bool
  timeFormat : String
  level : Int
  attrsPrefix : String
  groupPrefix : String
  addCxtAttr : List String
  groups : List String
  slowThreshold : Int
  w : Nat
deriving DecidableEq

/-- The `time.TimeOnly` layout constant. -/
def TimeOnly : String := "15:04:05"

/-- Translation of `NewDevHandler`: a zero `SlowThreshold` defaults to
one second (10^9 ns); the fields the composite literal does not set
(`attrsPrefix`, `groupPrefix`, `groups`) take Go zero values. -/
def NewDevHandler (opt : Options) : handlerTextColor :=
  let slowThreshold := if opt.SlowThreshold = 0 then 1000000000 else opt.SlowThreshold
  { level := LevelDebug
  , timeFormat := TimeOnly
  , source := opt.Source
  , slowThreshold := slowThreshold
  , addCxtAttr := opt.AddCxtAttr
  , w := opt.W
  , attrsPrefix := ""
  , groupPrefix := ""
  , groups := [] }

/-- Translation of `handlerTextColor.clone`: the composite literal
copies only `attrsPrefix`, `groupPrefix`, `groups`, `w`, `level` and
`timeFormat`; the remaining fields (`source`, `addCxtAttr`,
`slowThreshold`) take Go zero values. -/
def handlerTextColor.clone (h : handlerTextColor) : handlerTextColor :=
  { attrsPrefix := h.attrsPrefix
  , groupPrefix := h.groupPrefix
  , groups := h.groups
  , w := h.w
  , level := h.level
  , timeFormat := h.timeFormat
  , source := false
  , addCxtAttr := []
  , slowThreshold := 0 }

/-- A log record as the handler consumes it.  `time` is the record's
timestamp already laid out with the handler's time format (`none` iff
`r.Time.IsZero()`; the layout algorithm itself is not modelled — no
claim inspects the digits).  `frame` is the call frame
`runtime.CallersFrames([]uintptr\x7br.PC\x7d)` resolves (`none` iff
the resolved `f.File` is empty). -/
structure Record where
  time : Option String
  level : Int
  message : String
  frame : Option SourceDesc
  attrs : List Attr

/-- Translation of `handlerTextColor.Enabled`: always true, ignoring
both the context and the level (and the `level` field of the state). -/
def handlerTextColor.Enabled (_h : handlerTextColor) (_ctx : Ctx) (_level : Int) : Bool :=
  true

/-- Translation of `appendTime`: dim color around the formatted
timestamp. -/
def handlerTextColor.appendTime (_h : handlerTextColor) (buf t : String) : String :=
  buf ++ Faint ++ t ++ Reset

/-- Translation of `appendLevel`: red by default, bright green for
Info, bright yellow for Warn, around `level.String()`. -/
def handlerTextColor.appendLevel (_h : handlerTextColor) (buf : String) (level : Int) :
    String :=
  let colorLevel := if level = LevelInfo then BrightGreen
    else if level = LevelWarn then BrightYellow
    else Red
  buf ++ colorLevel ++ levelString level ++ Reset

/-- Translation of `appendSource`: `dirbase/file[:line] funcName`, the
file part dimmed (the reset is only written when the line is non-zero,
as in the source), the function name in blue. -/
def handlerTextColor.appendSource (_h : handlerTextColor) (buf : String) (src : SourceDesc) :
    String :=
  let dirFile := splitPath src.file
  let buf := buf ++ Faint ++ pathJoin (baseName dirFile.1) dirFile.2
  let buf := if src.line ≠ 0 then buf ++ ":" ++ toString src.line ++ Reset else buf
  let buf := buf ++ " "
  buf ++ Blue ++ getFuncNameSlog src.function ++ Reset ++ " "

/-- Translation of `appendMessage`: suppressed when empty; red for
Error, cyan otherwise. -/
def handlerTextColor.appendMessage (_h : handlerTextColor) (buf : String) (level : Int)
    (msg : String) : String :=
  if msg = "" then buf
  else
    let colorMsg := if level = LevelError then Red else Cyan
    buf ++ colorMsg ++ msg ++ Reset ++ " "

/-- Translation of `appendCtxValue`: `key=` dimmed, then the value
text. -/
def handlerTextColor.appendCtxValue (_h : handlerTextColor) (buf key value : String) :
    String :=
  buf ++ Faint ++ (key ++ "=") ++ Reset ++ value

/-- Translation of `appendKey`: dim color, the group-prefixed key
through `appendString` with `quote=false, color=true` (so never
quoted), then `=` and reset. -/
def handlerTextColor.appendKey (U : UTab) (_h : handlerTextColor) (buf key groups : String) :
    String :=
  let buf := buf ++ Faint
  let buf := appendString U buf (groups ++ key) false true
  buf ++ "=" ++ Reset

/-- Translation of `appendValue`.  The `KindAny` arm carries the
deferred `recover`: a `panics` payload appends `<nil>` unquoted when
the underlying value is a nil pointer, and the quoted
`!PANIC: <msg>` marker otherwise (the panic fires before the arm
appends anything, see `AnyVal.panics`).  `KindFloat64` is not
modelled; a `group` value appends nothing (no switch case), matching
the source, though `appendAttr` never passes one. -/
def handlerTextColor.appendValue (U : UTab) (h : handlerTextColor) (buf : String) (v : Value)
    (quote : Bool) : String :=
  match v with
  | .str s => appendString U buf s quote true
  | .int64 i => buf ++ toString i
  | .uint64 n => buf ++ toString n
  | .bool b => buf ++ (if b then "true" else "false")
  | .duration d => appendString U buf (durationString d) quote true
  | .time t => appendString U buf t quote true
  | .group _ => buf
  | .any a =>
    match a with
    | .nilAny => appendString U buf "<nil>" quote true
    | .level l => h.appendLevel buf l
    | .marshalText (some data) => appendString U buf data quote true
    | .marshalText none => buf
    | .srcDesc s => h.appendSource buf s
    | .logErr m => appendString U buf m quote true
    | .fmtStr s => appendString U buf s quote true
    | .panics isNilPtr msg =>
      if isNilPtr then appendString U buf "<nil>" false false
      else appendString U buf ("!PANIC: " ++ msg) true true

/-- Translation of `appendTintError`: blue group-prefixed key, `=`,
dimmed message, reset. -/
def handlerTextColor.appendTintError (U : UTab) (_h : handlerTextColor)
    (buf errMsg attrKey groupsPrefix : String) : String :=
  let buf := buf ++ Blue
  let buf := appendString U buf (groupsPrefix ++ attrKey) true true
  let buf := buf ++ "="
  let buf := buf ++ Faint
  let buf := appendString U buf errMsg true true
  buf ++ Reset

mutual

/-- Translation of `appendAttr`.  `attr.Value.Resolve()` is the
identity here (no `LogValuer` kind is modelled).  A zero attribute is
skipped; a `logError`-wrapped any-value goes through
`appendTintError`; a group recurses with an extended prefix (the key
only when non-empty); everything else renders `key=value `. -/
def handlerTextColor.appendAttr (U : UTab) (h : handlerTextColor) (buf : String) (attr : Attr)
    (groupsPrefix : String) (groups : List String) : String :=
  if isZeroAttr attr then buf
  else
    match attr with
    | (key, Value.any (AnyVal.logErr m)) =>
      handlerTextColor.appendTintError U h buf m key groupsPrefix ++ " "
    | (key, Value.group gattrs) =>
      let gp := if key ≠ "" then groupsPrefix ++ key ++ "." else groupsPrefix
      let gs := if key ≠ "" then groups ++ [key] else groups
      handlerTextColor.appendAttrList U h buf gattrs gp gs
    | (key, v) =>
      let buf := handlerTextColor.appendKey U h buf key groupsPrefix
      let buf := handlerTextColor.appendValue U h buf v true
      buf ++ " "
termination_by sizeOf attr

/-- The `r.Attrs(func(attr) bool \x7b ... \x7d)` / `for _, attr :=
range attrs` iteration: fold `appendAttr` over the attribute list. -/
def handlerTextColor.appendAttrList (U : UTab) (h : handlerTextColor) (buf : String)
    (attrs : List Attr) (groupsPrefix : String) (groups : List String) : String :=
  match attrs with
  | [] => buf
  | a :: rest =>
    handlerTextColor.appendAttrList U h
      (handlerTextColor.appendAttr U h buf a groupsPrefix groups) rest groupsPrefix groups
termination_by sizeOf attrs

end

/-- The `for _, v := range h.addCxtAttr` loop of `AddValueCtx`: render
`key=value ` for each key the context holds. -/
def addCtxLoop (h : handlerTextColor) (ctx : Ctx) : List String → String → String
  | [], buf => buf
  | v :: rest, buf =>
    match ctx v with
    | some c =>
      addCtxLoop h ctx rest (handlerTextColor.appendCtxValue h buf v (CtxVal.format c ++ " "))
    | none => addCtxLoop h ctx rest buf

/-- Translation of `AddValueCtx`: for each configured context key, in
order, render `key=value ` when the context holds the key (the method
always returns a nil error, so only the buffer is modelled). -/
def handlerTextColor.AddValueCtx (h : handlerTextColor) (ctx : Ctx) (buf : String) : String :=
  addCtxLoop h ctx h.addCxtAttr buf

/-- Translation of `appendSql`: nothing without a `Sql` context value;
otherwise a leading newline, the bracketed duration (green, or red
strictly above the slow threshold) only when the `Duration` context
value is a `time.Duration`, the yellow row count when `Rows` is
present, the SQL text (red on Error, magenta otherwise) and a trailing
newline. -/
def handlerTextColor.appendSql (h : handlerTextColor) (ctx : Ctx) (level : Int) (buf : String) :
    String :=
  match ctx Sql with
  | none => buf
  | some sqlv =>
    let buf := buf ++ "\n"
    let buf :=
      match ctx Duration with
      | some (CtxVal.dur c) =>
        let colorDuration := if h.slowThreshold < c then Red else Green
        buf ++ colorDuration ++ ("[" ++ formatSeconds4 c ++ "] ") ++ Reset
      | _ => buf
    let buf :=
      match ctx Rows with
      | some c => buf ++ Yellow ++ ("rows:" ++ CtxVal.format c ++ " ") ++ Reset
      | none => buf
    let colorSql := if level = LevelError then Red else Magenta
    buf ++ colorSql ++ (CtxVal.format sqlv ++ " ") ++ Reset ++ "\n"

/-- The append sequence of `handlerTextColor.Handle` before the final
newline replacement: timestamp (skipped when zero), level, source
block (only when enabled and a frame resolved; a typed `Source`
context value wins over the record's own frame), message, the record's
attributes, the configured context attributes, the inherited
`attrsPrefix` bytes, and the SQL trace block. -/
def handlerTextColor.renderBody (U : UTab) (h : handlerTextColor) (ctx : Ctx) (r : Record) :
    String :=
  let buf := ""
  let buf := match r.time with
    | some t => h.appendTime buf t ++ " "
    | none => buf
  let buf := h.appendLevel buf r.level ++ " "
  let buf :=
    match r.frame with
    | some f =>
      if h.source then
        match ctx Source with
        | some (CtxVal.src c) => h.appendSource buf c
        | _ => h.appendSource buf f
      else buf
    | none => buf
  let buf := h.appendMessage buf r.level r.message
  let buf := handlerTextColor.appendAttrList U h buf r.attrs h.groupPrefix h.groups
  let buf := h.AddValueCtx ctx buf
  let buf := buf ++ h.attrsPrefix
  handlerTextColor.appendSql h ctx r.level buf

/-- Translation of `handlerTextColor.Handle`.  The result is the byte
sequence written to the sink (`""` when the buffer ended empty and
nothing is written); the sink's own write error is outside the
rendering semantics.  The final statement replaces the last byte with a
newline; in every reachable state the buffer ends in a single-byte
rune (`' '` or `'\n'`), so `dropRight 1` models it. -/
def handlerTextColor.Handle (U : UTab) (h : handlerTextColor) (ctx : Ctx) (r : Record) :
    String :=
  let buf := handlerTextColor.renderBody U h ctx r
  if buf = "" then ""
  else buf.dropRight 1 ++ "\n"

/-- Translation of `handlerTextColor.WithAttrs`: the receiver itself
for an empty list; otherwise a clone whose `attrsPrefix` is the
inherited prefix followed by the given attributes pre-rendered with
the PARENT's group prefix and groups. -/
def handlerTextColor.WithAttrs (U : UTab) (h : handlerTextColor) (attrs : List Attr) :
    handlerTextColor :=
  if attrs.length = 0 then h
  else
    let h2 := h.clone
    let buf := handlerTextColor.appendAttrList U h "" attrs h.groupPrefix h.groups
    { h2 with attrsPrefix := h.attrsPrefix ++ buf }

/-- Translation of `handlerTextColor.WithGroup`: the receiver itself
for an empty name; otherwise a clone with `name + "."` appended to the
group prefix and `name` appended to the group list. -/
def handlerTextColor.WithGroup (h : handlerTextColor) (name : String) : handlerTextColor :=
  if name = "" then h
  else
    let h2 := h.clone
    { h2 with groupPrefix := h2.groupPrefix ++ name ++ "."
            , groups := h2.groups ++ [name] }

/-! ## The context-enrichment decorator (`HandlerMiddleware`, logger.go) -/

/-- The `slog.Handler` interface of a downstream handler, as the
middleware consumes it: the middleware is generic in its `next`
handler, so its operations are passed explicitly (`H` the handler
type, `E` the result type of `Handle`). -/
structure HandlerOps (H : Type) (E : Type) where
  enabled : H → Ctx → Int → Bool
  handle : H → Ctx → Record → E
  withAttrs : H → List Attr → H
  withGroup : H → String → H

/-- The `HandlerMiddleware` struct: enrichment configuration plus the
downstream handler. -/
structure HandlerMiddleware (H : Type) where
  source : Bool
  addCxtAttr : List String
  next : H

/-- Translation of `NewHandlerMiddleware`. -/
def NewHandlerMiddleware {H : Type} (next : H) (opt : Options) : HandlerMiddleware H :=
  { next := next, source := opt.Source, addCxtAttr := opt.AddCxtAttr }

/-- The record mutation `rec.Add(key, value)` after `slog.AnyValue`
conversion of the argument (a context value goes through
`CtxVal.toValue` at the call sites): the attribute is appended to the
record's attribute list. -/
def Record.add (r : Record) (key : String) (v : Value) : Record :=
  { r with attrs := r.attrs ++ [(key, v)] }

/-- The `for _, v := range h.addCxtAttr` loop of the middleware's
`Handle`: each configured key present in context is attached to the
record. -/
def recAddLoop (ctx : Ctx) : List String → Record → Record
  | [], r => r
  | v :: rest, r =>
    match ctx v with
    | some c => recAddLoop ctx rest (r.add v (CtxVal.toValue c))
    | none => recAddLoop ctx rest r

/-- Translation of `HandlerMiddleware.Enabled`: pure delegation. -/
def HandlerMiddleware.Enabled {H E : Type} (ops : HandlerOps H E) (h : HandlerMiddleware H)
    (ctx : Ctx) (level : Int) : Bool :=
  ops.enabled h.next ctx level

/-- Translation of `HandlerMiddleware.Handle`: attach each configured
context attribute, always attach a present `Sql` context value, then —
when source resolution is enabled and the context does not already
carry ANY `Source` value (a plain nil check, not a type assertion) —
resolve the record's frame and attach a `*slog.Source` with the
reduced function name and `dirbase/file` path; finally delegate. -/
def HandlerMiddleware.Handle {H E : Type} (ops : HandlerOps H E) (h : HandlerMiddleware H)
    (ctx : Ctx) (r : Record) : E :=
  let r1 := recAddLoop ctx h.addCxtAttr r
  let r2 := match ctx Sql with
    | some c => r1.add Sql (CtxVal.toValue c)
    | none => r1
  let r3 :=
    if h.source then
      match ctx Source with
      | some _ => r2
      | none =>
        match r2.frame with
        | some f =>
          let dirFile := splitPath f.file
          let pathFile := pathJoin (baseName dirFile.1) dirFile.2
          r2.add Source (Value.any (AnyVal.srcDesc
            { function := getFuncNameSlog f.function, file := pathFile, line := f.line }))
        | none => r2
    else r2
  ops.handle h.next ctx r3

/-- Translation of `HandlerMiddleware.WithAttrs`: the composite
literal sets only `next` (to the derived downstream handler); `source`
and `addCxtAttr` take Go zero values. -/
def HandlerMiddleware.WithAttrs {H E : Type} (ops : HandlerOps H E) (h : HandlerMiddleware H)
    (attrs : List Attr) : HandlerMiddleware H :=
  { source := false, addCxtAttr := [], next := ops.withAttrs h.next attrs }

/-- Translation of `HandlerMiddleware.WithGroup`: the composite
literal sets only `next`; `source` and `addCxtAttr` take Go zero
values. -/
def HandlerMiddleware.WithGroup {H E : Type} (ops : HandlerOps H E) (h : HandlerMiddleware H)
    (name : String) : HandlerMiddleware H :=
  { source := false, addCxtAttr := [], next := ops.withGroup h.next name }

/-! ## Helper notions used by the theorems -/

/-- A context with one key deleted (used to state that a section whose
key is absent or wrongly typed is simply omitted). -/
def ctxDel (ctx : Ctx) (key : String) : Ctx :=
  fun k => if k = key then none else ctx k

/-- The Sql-only record enrichment a derived middleware still
performs: its `addCxtAttr` list is empty and its `source` flag false,
so only the unconditional `Sql` attachment remains. -/
def sqlEnrich (ctx : Ctx) (r : Record) : Record :=
  match ctx Sql with
  | some c => r.add Sql (CtxVal.toValue c)
  | none => r

/-! ## Theorems: the frozen claims, with their helper lemmas -/

lemma needsQuotingChar_eq_amended (U : UTab) (c : Char) :
    needsQuotingChar U c = amendedBadChar U c := by
  unfold needsQuotingChar amendedBadChar
  by_cases h : c.toNat < 128
  · have h128 : ¬ (128 ≤ c.toNat) := by omega
    simp only [if_pos h, decide_eq_true h, Bool.true_and,
      decide_eq_false h128, Bool.false_and, Bool.or_false]
    by_cases hb : c = '\\'
    · subst hb; decide
    · by_cases hs : c = ' '
      · subst hs; decide
      · by_cases he : c = '='
        · subst he; decide
        · simp [hb, hs, he]
  · have h128 : 128 ≤ c.toNat := by omega
    have hs : c ≠ ' ' := by rintro rfl; exact h (by decide)
    have he : c ≠ '=' := by rintro rfl; exact h (by decide)
    simp [if_neg h, decide_eq_false h, decide_eq_true h128, hs, he]

lemma splitDot_ne_nil (l : List Char) : splitDot l ≠ [] := by
  cases l with
  | nil => simp [splitDot]
  | cons c rest =>
    unfold splitDot
    cases hr : splitDot rest with
    | nil => by_cases hc : c = '.' <;> simp [hc, hr]
    | cons hd tl => by_cases hc : c = '.' <;> simp [hc, hr]

lemma dotFold_append (l : List String) (a : String) :
    l.foldl (fun acc seg => "." ++ seg ++ acc) a
      = l.foldl (fun acc seg => "." ++ seg ++ acc) "" ++ a := by
  induction l generalizing a with
  | nil => simp
  | cons x tl ih =>
    simp only [List.foldl_cons]
    rw [ih ("." ++ x ++ a), ih ("." ++ x ++ "")]
    simp [String.append_assoc]

lemma funcNameLoop_eq (l : List String) (acc : String) :
    funcNameLoop l acc
      = (match l.dropWhile isSyntheticSeg with
         | [] => ""
         | hd :: _ => hd)
        ++ (l.takeWhile isSyntheticSeg).foldl (fun a seg => "." ++ seg ++ a) ""
        ++ acc := by
  induction l generalizing acc with
  | nil => simp [funcNameLoop]
  | cons seg rest ih =>
    by_cases hsyn : isSyntheticSeg seg = true
    · rw [funcNameLoop, if_pos hsyn, ih, List.dropWhile_cons_of_pos hsyn,
        List.takeWhile_cons_of_pos hsyn, List.foldl_cons,
        dotFold_append (rest.takeWhile isSyntheticSeg) ("." ++ seg ++ "")]
      simp [String.append_assoc]
    · rw [funcNameLoop, if_neg hsyn,
        List.dropWhile_cons_of_neg hsyn, List.takeWhile_cons_of_neg hsyn]
      simp

/-- C7 (counterexample). The claim absorbs exactly the trailing
segments that are numeric-only or `func`-prefixed.  The source instead
absorbs the segments `strconv.Atoi` accepts, which includes signed
numerals: on `"a.-5"` the source absorbs `"-5"` and returns `"a.-5"`,
while the claim's walk stops at `"-5"` (not numeric-only) and returns
`"-5"`. -/
theorem getFuncNameSlog_numericOnly_cex :
    getFuncNameSlog "a.-5" = "a.-5" ∧ claimReduce "a.-5" = "-5"
      ∧ getFuncNameSlog "a.-5" ≠ claimReduce "a.-5" := by
  decide

/-- C7 (amended). Function-name reduction splits the fully qualified
name on `.` and, walking from the end, absorbs every trailing segment
accepted by Go's integer parsing (optionally signed decimal within the
64-bit range) or literally prefixed with `func` into a dotted suffix,
stopping at the first other segment, which becomes the head of the
display name (the head is empty when every segment is absorbed); in
particular a name ending in `...pkg.(*Type).Method.func1.1` reduces to
`Method.func1.1`. -/
theorem getFuncNameSlog_amended :
    (∀ s : String,
      getFuncNameSlog s =
        (match (splitDot s.data).reverse.dropWhile isSyntheticSeg with
         | [] => ""
         | hd :: _ => hd)
        ++ ((splitDot s.data).reverse.takeWhile isSyntheticSeg).foldl
            (fun a seg => "." ++ seg ++ a) "")
    ∧ getFuncNameSlog "github.com/user/repo/pkg.(*Type).Method.func1.1"
        = "Method.func1.1" := by
  constructor
  · intro s
    simp only [getFuncNameSlog]
    rw [if_neg (by simpa using splitDot_ne_nil s.data), funcNameLoop_eq]
    simp
  · decide

/-- C3 (counterexample). The claim states that quoting is required
exactly when the string is empty, contains a space, an `=`, a character
outside the fixed safe set, or a non-printable/space code point.  The
string `"\\"` (one backslash) contains a character outside the safe set
(`safeSet['\\'] = false`), so the claim requires quoting for it — but
the source's `needsQuoting` exempts the backslash explicitly
(`b != '\\' && ...`) and returns `false`. -/
theorem needsQuoting_backslash_cex :
    needsQuoting asciiTab "\\" = false ∧ claimNeedsQuoting asciiTab "\\" = true := by
  decide

/-- C3 (amended). The string-quoting predicate returns `true` for the
empty string; otherwise quoting is required exactly when the string
contains a space, an `=`, a non-backslash character outside the fixed
safe-printable-ASCII set, a literal replacement character U+FFFD (the
source's `utf8.RuneError` test), or a (≥ 128) non-printable or space
Unicode code point — for every instantiation of the Unicode tables. -/
theorem needsQuoting_iff_amended (U : UTab) (s : String) :
    needsQuoting U s = true ↔ (s = "" ∨ ∃ c ∈ s.data, amendedBadChar U c = true) := by
  unfold needsQuoting
  by_cases h : s.length = 0
  · have hs : s = "" := by
      have : s.data = [] := List.length_eq_zero.mp h
      cases s; simp_all
    simp [h, hs]
  · have hs : ¬ s = "" := by
      intro e; subst e; exact h rfl
    simp only [if_neg h, hs, false_or]
    rw [List.any_eq_true]
    constructor
    · rintro ⟨c, hc, hq⟩
      exact ⟨c, hc, by rw [← needsQuotingChar_eq_amended]; exact hq⟩
    · rintro ⟨c, hc, hq⟩
      exact ⟨c, hc, by rw [needsQuotingChar_eq_amended]; exact hq⟩

/-! ## Shared helper lemmas -/

lemma appendString_no_quote (U : UTab) (buf s : String) (color : Bool) :
    appendString U buf s false color = buf ++ s := by
  unfold appendString
  simp

lemma appendKey_eq (U : UTab) (h : handlerTextColor) (buf key groups : String) :
    handlerTextColor.appendKey U h buf key groups
      = buf ++ Faint ++ (groups ++ key) ++ "=" ++ Reset := by
  unfold handlerTextColor.appendKey
  simp [appendString_no_quote]

lemma needsQuotingChar_ascii_eval (U : UTab) (c : Char) (h : c.toNat < 128) :
    needsQuotingChar U c
      = (decide (c ≠ '\\') && (decide (c = ' ') || decide (c = '=') || !safeSet c.toNat)) := by
  unfold needsQuotingChar
  rw [if_pos h]

lemma any_needsQuotingChar_ascii (U : UTab) (l : List Char) (h : ∀ c ∈ l, c.toNat < 128) :
    l.any (needsQuotingChar U) = l.any (needsQuotingChar asciiTab) := by
  induction l with
  | nil => rfl
  | cons c rest ih =>
    simp only [List.any_cons]
    rw [ih (fun x hx => h x (List.mem_cons_of_mem _ hx))]
    have hc : c.toNat < 128 := h c (List.mem_cons_self _ _)
    rw [needsQuotingChar_ascii_eval U c hc, needsQuotingChar_ascii_eval asciiTab c hc]

lemma needsQuoting_nil_token (U : UTab) : needsQuoting U "<nil>" = false := by
  unfold needsQuoting
  rw [if_neg (by decide), any_needsQuotingChar_ascii U _ (by decide)]
  decide

lemma appendString_nil_token (U : UTab) (buf : String) (quote : Bool) :
    appendString U buf "<nil>" quote true = buf ++ "<nil>" := by
  unfold appendString
  simp [needsQuoting_nil_token]

lemma appendString_quoted_color (U : UTab) (buf s : String) (hq : needsQuoting U s = true) :
    appendString U buf s true true
      = buf ++ String.replace (goQuote U s) "\\x1b" (String.singleton ansiEsc) := by
  unfold appendString
  simp [hq]

lemma needsQuoting_panic_marker (U : UTab) (msg : String) :
    needsQuoting U ("!PANIC: " ++ msg) = true := by
  unfold needsQuoting
  have hlen : ("!PANIC: " ++ msg).length = 8 + msg.length := by
    rw [String.length_append]
    rfl
  rw [if_neg (by omega), String.data_append, List.any_append]
  have h1 : ("!PANIC: ".data.any (needsQuotingChar U)) = true :=
    List.any_eq_true.mpr ⟨' ', by decide,
      by rw [needsQuotingChar_ascii_eval U ' ' (by decide)]; decide⟩
  rw [h1, Bool.true_or]

lemma appendAttr_nilAny_key (U : UTab) (h : handlerTextColor) (buf k gp : String)
    (gs : List String) (hk : k ≠ "") :
    handlerTextColor.appendAttr U h buf (k, Value.any AnyVal.nilAny) gp gs
      = buf ++ Faint ++ (gp ++ k) ++ "=" ++ Reset ++ "<nil>" ++ " " := by
  unfold handlerTextColor.appendAttr
  have hz : isZeroAttr (k, Value.any AnyVal.nilAny) = false := by
    simp [isZeroAttr, Value.isNilAny, hk]
  rw [hz]
  simp [handlerTextColor.appendValue, appendKey_eq, appendString_nil_token,
    String.append_assoc]

/-- C10. For every handler state, context and severity level, the dev
handler's `Enabled` returns `true`: the `level` field of the state is
never consulted, so no record — Debug included — is ever filtered. -/
theorem Enabled_always_true (h : handlerTextColor) (ctx : Ctx) (level : Int) :
    handlerTextColor.Enabled h ctx level = true := rfl

/-- C8. Deriving the context-enrichment decorator via `WithAttrs` or
`WithGroup` yields a decorator whose downstream handler is the
correspondingly derived downstream handler and whose own enrichment
configuration is NOT carried over (`source = false`,
`addCxtAttr = []`); consequently a derived decorator's `Handle`
performs no context-attribute and no source enrichment — only the
unconditional `Sql` attachment remains before delegation. -/
theorem middleware_derivation_drops_config (H E : Type) (ops : HandlerOps H E)
    (m : HandlerMiddleware H) (attrs : List Attr) (name : String) (ctx : Ctx) (r : Record) :
    (HandlerMiddleware.WithAttrs ops m attrs
        = { source := false, addCxtAttr := [], next := ops.withAttrs m.next attrs })
    ∧ (HandlerMiddleware.WithGroup ops m name
        = { source := false, addCxtAttr := [], next := ops.withGroup m.next name })
    ∧ (HandlerMiddleware.Handle ops (HandlerMiddleware.WithAttrs ops m attrs) ctx r
        = ops.handle (ops.withAttrs m.next attrs) ctx (sqlEnrich ctx r))
    ∧ (HandlerMiddleware.Handle ops (HandlerMiddleware.WithGroup ops m name) ctx r
        = ops.handle (ops.withGroup m.next name) ctx (sqlEnrich ctx r)) :=
  ⟨rfl, rfl, rfl, rfl⟩

/-- C1 (counterexample). The claim asserts that a child produced by
`WithGroup` (non-empty name) keeps the parent's `slowThreshold`.  For
a handler built with `SlowThreshold = 5`, the child of `WithGroup "g"`
has `slowThreshold = 0` (the source's `clone` does not copy the field),
refuting the claim; the same holds for `source` and `addCxtAttr`. -/
theorem withGroup_drops_config_cex :
    ((NewDevHandler
        { AddCxtAttr := ["k"], W := 7, Source := true, SlowThreshold := 5 }).WithGroup
        "g").slowThreshold
      ≠ (NewDevHandler
        { AddCxtAttr := ["k"], W := 7, Source := true, SlowThreshold := 5 }).slowThreshold := by
  decide

/-- C1 (amended). Deriving via `WithAttrs` (non-empty attribute list)
or `WithGroup` (non-empty name) produces a new instance sharing the
parent's output sink `w`, `level` and `timeFormat`, with `attrsPrefix`,
`groupPrefix` and `groups` evolving by the derivation rules — but the
child's `source`, `addCxtAttr` and `slowThreshold` are RESET to the Go
zero values (`false`, `[]`, `0`) rather than copied (the parent itself,
being a value the derivation never mutates, is unchanged). -/
theorem derive_shares_sink_and_format (U : UTab) (h : handlerTextColor)
    (attrs : List Attr) (name : String) :
    (attrs ≠ [] →
      (h.WithAttrs U attrs).w = h.w
      ∧ (h.WithAttrs U attrs).level = h.level
      ∧ (h.WithAttrs U attrs).timeFormat = h.timeFormat
      ∧ (h.WithAttrs U attrs).groupPrefix = h.groupPrefix
      ∧ (h.WithAttrs U attrs).groups = h.groups
      ∧ (h.WithAttrs U attrs).attrsPrefix
          = h.attrsPrefix ++ handlerTextColor.appendAttrList U h "" attrs h.groupPrefix h.groups
      ∧ (h.WithAttrs U attrs).source = false
      ∧ (h.WithAttrs U attrs).addCxtAttr = []
      ∧ (h.WithAttrs U attrs).slowThreshold = 0)
    ∧ (name ≠ "" →
      (h.WithGroup name).w = h.w
      ∧ (h.WithGroup name).level = h.level
      ∧ (h.WithGroup name).timeFormat = h.timeFormat
      ∧ (h.WithGroup name).attrsPrefix = h.attrsPrefix
      ∧ (h.WithGroup name).groupPrefix = h.groupPrefix ++ name ++ "."
      ∧ (h.WithGroup name).groups = h.groups ++ [name]
      ∧ (h.WithGroup name).source = false
      ∧ (h.WithGroup name).addCxtAttr = []
      ∧ (h.WithGroup name).slowThreshold = 0) := by
  constructor
  · intro ha
    have hlen : ¬ (attrs.length = 0) := fun h0 => ha (List.length_eq_zero.mp h0)
    unfold handlerTextColor.WithAttrs
    rw [if_neg hlen]
    exact ⟨rfl, rfl, rfl, rfl, rfl, rfl, rfl, rfl, rfl⟩
  · intro hb
    unfold handlerTextColor.WithGroup
    rw [if_neg hb]
    exact ⟨rfl, rfl, rfl, rfl, rfl, rfl, rfl, rfl, rfl⟩

/-- C1 (witness): the amended theorem applied at a concrete handler
and derivation. -/
theorem derive_shares_sink_and_format_witness :
    ((NewDevHandler
        { AddCxtAttr := ["k"], W := 7, Source := true, SlowThreshold := 5 }).WithGroup
        "g").slowThreshold = 0 ∧
    ((NewDevHandler
        { AddCxtAttr := ["k"], W := 7, Source := true, SlowThreshold := 5 }).WithAttrs
        asciiTab [("k", Value.str "v")]).w
      = (NewDevHandler
        { AddCxtAttr := ["k"], W := 7, Source := true, SlowThreshold := 5 }).w :=
  ⟨((derive_shares_sink_and_format asciiTab
      (NewDevHandler { AddCxtAttr := ["k"], W := 7, Source := true, SlowThreshold := 5 })
      [("k", Value.str "v")] "g").2 (by decide)).2.2.2.2.2.2.2.2,
   ((derive_shares_sink_and_format asciiTab
      (NewDevHandler { AddCxtAttr := ["k"], W := 7, Source := true, SlowThreshold := 5 })
      [("k", Value.str "v")] "g").1 (by simp)).1⟩

/-- C2 (counterexample). The claim asserts that an attribute whose
resolved value is the zero value is skipped regardless of its key.
The attribute `("k", zero value)` is NOT skipped: `attr.Equal(slog.Attr\x7b\x7d)`
compares the key too, so the render pass appends `k=<nil> ` (the zero
value has kind `KindAny` holding nil, which `%+v` prints as `<nil>`). -/
theorem zero_value_attr_rendered_cex :
    handlerTextColor.appendAttr asciiTab
        (NewDevHandler { AddCxtAttr := [], W := 0, Source := false, SlowThreshold := 0 })
        "" ("k", Value.any AnyVal.nilAny) "" [] ≠ "" := by
  rw [appendAttr_nilAny_key asciiTab _ "" "k" "" [] (by decide)]
  decide

/-- C2 (amended). An attribute is skipped exactly by the
`attr.Equal(slog.Attr\x7b\x7d)` test: the render pass appends nothing when
BOTH the key is empty and the resolved value is the zero value; with a
non-empty key, a zero-valued attribute is rendered as `key=<nil> `. -/
theorem zero_attr_skip_amended (U : UTab) (h : handlerTextColor) (buf gp : String)
    (gs : List String) (k : String) :
    (handlerTextColor.appendAttr U h buf ("", Value.any AnyVal.nilAny) gp gs = buf)
    ∧ (k ≠ "" →
        handlerTextColor.appendAttr U h buf (k, Value.any AnyVal.nilAny) gp gs
          = buf ++ Faint ++ (gp ++ k) ++ "=" ++ Reset ++ "<nil>" ++ " ") := by
  constructor
  · unfold handlerTextColor.appendAttr
    simp [isZeroAttr, Value.isNilAny]
  · intro hk
    exact appendAttr_nilAny_key U h buf k gp gs hk

/-- C2 (witness): the amended theorem applied at a concrete handler,
buffer and key. -/
theorem zero_attr_skip_amended_witness :
    handlerTextColor.appendAttr asciiTab
        (NewDevHandler { AddCxtAttr := [], W := 0, Source := false, SlowThreshold := 0 })
        "b" ("k", Value.any AnyVal.nilAny) "g." []
      = "b" ++ Faint ++ ("g." ++ "k") ++ "=" ++ Reset ++ "<nil>" ++ " " :=
  (zero_attr_skip_amended asciiTab
    (NewDevHandler { AddCxtAttr := [], W := 0, Source := false, SlowThreshold := 0 })
    "b" "g." [] "k").2 (by decide)

/-- C5. A `KindAny` attribute whose custom encoding panics: when the
underlying value is a nil pointer, exactly `<nil>` is rendered for the
value (unquoted, after the `key=` part); otherwise the quoted
`!PANIC: <msg>` marker is rendered; rendering of subsequent attributes
proceeds (the attribute-list walk continues past the recovered
attribute), and whenever `Handle` writes anything at all the written
bytes end with the trailing newline. -/
theorem panic_recovery_containment (U : UTab) (h : handlerTextColor) (buf gp k msg : String)
    (gs : List String) (rest : List Attr) (ctx : Ctx) (r : Record) (nilp : Bool) :
    (handlerTextColor.appendAttr U h buf (k, Value.any (AnyVal.panics true msg)) gp gs
        = buf ++ Faint ++ (gp ++ k) ++ "=" ++ Reset ++ "<nil>" ++ " ")
    ∧ (handlerTextColor.appendAttr U h buf (k, Value.any (AnyVal.panics false msg)) gp gs
        = buf ++ Faint ++ (gp ++ k) ++ "=" ++ Reset
          ++ String.replace (goQuote U ("!PANIC: " ++ msg)) "\\x1b" (String.singleton ansiEsc)
          ++ " ")
    ∧ (handlerTextColor.appendAttrList U h buf
          ((k, Value.any (AnyVal.panics nilp msg)) :: rest) gp gs
        = handlerTextColor.appendAttrList U h
            (handlerTextColor.appendAttr U h buf (k, Value.any (AnyVal.panics nilp msg)) gp gs)
            rest gp gs)
    ∧ (handlerTextColor.Handle U h ctx r ≠ "" →
        ∃ t, handlerTextColor.Handle U h ctx r = t ++ "\n") := by
  refine ⟨?_, ?_, ?_, ?_⟩
  · unfold handlerTextColor.appendAttr
    have hz : isZeroAttr (k, Value.any (AnyVal.panics true msg)) = false := by
      simp [isZeroAttr, Value.isNilAny]
    rw [hz]
    simp only [Bool.false_eq_true, if_false]
    simp [handlerTextColor.appendValue, appendKey_eq, appendString_no_quote,
      String.append_assoc]
  · unfold handlerTextColor.appendAttr
    have hz : isZeroAttr (k, Value.any (AnyVal.panics false msg)) = false := by
      simp [isZeroAttr, Value.isNilAny]
    rw [hz]
    simp only [Bool.false_eq_true, if_false]
    simp [handlerTextColor.appendValue, appendKey_eq,
      appendString_quoted_color U _ _ (needsQuoting_panic_marker U msg),
      String.append_assoc]
  · simp [handlerTextColor.appendAttrList]
  · have hH : handlerTextColor.Handle U h ctx r
        = if handlerTextColor.renderBody U h ctx r = "" then ""
          else (handlerTextColor.renderBody U h ctx r).dropRight 1 ++ "\n" := rfl
    intro hne
    rw [hH] at hne ⊢
    by_cases hB : handlerTextColor.renderBody U h ctx r = ""
    · rw [if_pos hB] at hne
      exact absurd rfl hne
    · rw [if_neg hB]
      exact ⟨_, rfl⟩

/-- C5 (witness): the theorem applied at a concrete handler, record
and context (the trailing-newline conjunct's hypothesis discharged by
computing the rendered line). -/
theorem panic_recovery_containment_witness :
    ∃ t, handlerTextColor.Handle asciiTab
        (NewDevHandler { AddCxtAttr := [], W := 0, Source := false, SlowThreshold := 0 })
        (fun _ => none)
        { time := none, level := 0, message := "", frame := none, attrs := [] }
      = t ++ "\n" :=
  (panic_recovery_containment asciiTab
    (NewDevHandler { AddCxtAttr := [], W := 0, Source := false, SlowThreshold := 0 })
    "" "" "k" "boom" [] [] (fun _ => none)
    { time := none, level := 0, message := "", frame := none, attrs := [] } true).2.2.2
    (by
      simp [handlerTextColor.Handle, handlerTextColor.renderBody, handlerTextColor.appendLevel,
        handlerTextColor.appendMessage, handlerTextColor.AddValueCtx, addCtxLoop,
        handlerTextColor.appendSql, handlerTextColor.appendAttrList, NewDevHandler,
        levelString, levelBase, LevelInfo, LevelWarn, LevelError, LevelDebug,
        BrightGreen, Reset]
      decide)

lemma addCtxLoop_congr (h : handlerTextColor) (ctx ctx' : Ctx) (l : List String)
    (hc : ∀ k ∈ l, ctx k = ctx' k) (buf : String) :
    addCtxLoop h ctx l buf = addCtxLoop h ctx' l buf := by
  induction l generalizing buf with
  | nil => rfl
  | cons v rest ih =>
    have hv : ctx v = ctx' v := hc v (List.mem_cons_self _ _)
    have hr : ∀ k ∈ rest, ctx k = ctx' k := fun k hk => hc k (List.mem_cons_of_mem _ hk)
    unfold addCtxLoop
    rw [hv]
    cases ctx' v with
    | some c => exact ih hr _
    | none => exact ih hr _

lemma addCtxLoop_absent (h : handlerTextColor) (ctx : Ctx) (l : List String)
    (habs : ∀ k ∈ l, ctx k = none) (buf : String) :
    addCtxLoop h ctx l buf = buf := by
  induction l generalizing buf with
  | nil => rfl
  | cons v rest ih =>
    unfold addCtxLoop
    rw [habs v (List.mem_cons_self _ _)]
    exact ih (fun k hk => habs k (List.mem_cons_of_mem _ hk)) _

lemma appendSql_congr (h : handlerTextColor) (ctx ctx' : Ctx)
    (h1 : ctx Sql = ctx' Sql) (h2 : ctx Duration = ctx' Duration)
    (h3 : ctx Rows = ctx' Rows) (level : Int) (buf : String) :
    handlerTextColor.appendSql h ctx level buf
      = handlerTextColor.appendSql h ctx' level buf := by
  unfold handlerTextColor.appendSql
  rw [h1, h2, h3]

/-- C4. When the SQL trace block is rendered with a `Duration` context
value `d`, the bracketed duration is wrapped in the normal (green)
color whenever `d` is at most the configured `slowThreshold`, and in
the alarm (red) color whenever `d` is strictly greater; in particular
`d` exactly equal to the threshold renders green (the source tests
`c > h.slowThreshold`). -/
theorem sql_duration_color (h : handlerTextColor) (ctx : Ctx) (level : Int) (buf : String)
    (d : Int) (s : CtxVal) (hsql : ctx Sql = some s)
    (hdur : ctx Duration = some (CtxVal.dur d)) :
    ∃ rest : String,
      handlerTextColor.appendSql h ctx level buf
        = buf ++ "\n" ++ (if h.slowThreshold < d then Red else Green)
          ++ ("[" ++ formatSeconds4 d ++ "] ") ++ Reset ++ rest
      ∧ (d ≤ h.slowThreshold → (if h.slowThreshold < d then Red else Green) = Green)
      ∧ (h.slowThreshold < d → (if h.slowThreshold < d then Red else Green) = Red) := by
  unfold handlerTextColor.appendSql
  cases hrows : ctx Rows with
  | none =>
    refine ⟨(if level = LevelError then Red else Magenta) ++ (CtxVal.format s ++ " ")
      ++ Reset ++ "\n", ?_, ?_, ?_⟩
    · simp [hsql, hdur, hrows, String.append_assoc]
    · intro hle; rw [if_neg (not_lt.mpr hle)]
    · intro hlt; rw [if_pos hlt]
  | some c =>
    refine ⟨Yellow ++ ("rows:" ++ CtxVal.format c ++ " ") ++ Reset
      ++ ((if level = LevelError then Red else Magenta) ++ (CtxVal.format s ++ " ")
        ++ Reset ++ "\n"), ?_, ?_, ?_⟩
    · simp [hsql, hdur, hrows, String.append_assoc]
    · intro hle; rw [if_neg (not_lt.mpr hle)]
    · intro hlt; rw [if_pos hlt]

/-- C4 (witness): the theorem applied at a concrete handler (default
1-second threshold) and a context carrying `Sql` and a 250ms
`Duration`. -/
theorem sql_duration_color_witness :
    ∃ rest : String,
      handlerTextColor.appendSql
          (NewDevHandler { AddCxtAttr := [], W := 0, Source := false, SlowThreshold := 0 })
          (fun k => if k = Sql then some (CtxVal.str "SELECT 1")
                    else if k = Duration then some (CtxVal.dur 250000000) else none)
          0 ""
        = "" ++ "\n"
          ++ (if (NewDevHandler { AddCxtAttr := [], W := 0, Source := false, SlowThreshold := 0 }).slowThreshold < (250000000 : Int) then Red else Green)
          ++ ("[" ++ formatSeconds4 250000000 ++ "] ") ++ Reset ++ rest
      ∧ ((250000000 : Int) ≤ (NewDevHandler { AddCxtAttr := [], W := 0, Source := false, SlowThreshold := 0 }).slowThreshold →
          (if (NewDevHandler { AddCxtAttr := [], W := 0, Source := false, SlowThreshold := 0 }).slowThreshold < (250000000 : Int) then Red else Green) = Green)
      ∧ ((NewDevHandler { AddCxtAttr := [], W := 0, Source := false, SlowThreshold := 0 }).slowThreshold < (250000000 : Int) →
          (if (NewDevHandler { AddCxtAttr := [], W := 0, Source := false, SlowThreshold := 0 }).slowThreshold < (250000000 : Int) then Red else Green) = Red) :=
  sql_duration_color
    (NewDevHandler { AddCxtAttr := [], W := 0, Source := false, SlowThreshold := 0 })
    (fun k => if k = Sql then some (CtxVal.str "SELECT 1")
              else if k = Duration then some (CtxVal.dur 250000000) else none)
    0 "" 250000000 (CtxVal.str "SELECT 1") rfl rfl

/-- C6. A recognized context key that is absent, or holds a value of
the wrong type, never makes rendering fail: an absent `Sql` key means
the whole SQL block is omitted; a `Duration` key not holding a
duration renders exactly as if the key were absent (the duration
sub-block omitted); a `Source` key not holding a `slog.Source` renders
exactly as if the key were absent (the frame fallback, the rest of the
line unchanged — `Handle` is a total function, so no failure or panic
is possible); configured `addCxtAttr` keys absent from the context
contribute nothing. -/
theorem missing_or_malformed_ctx_omitted (U : UTab) (h : handlerTextColor) (ctx : Ctx)
    (level : Int) (buf : String) (r : Record) :
    (ctx Sql = none → handlerTextColor.appendSql h ctx level buf = buf)
    ∧ ((∀ d, ctx Duration ≠ some (CtxVal.dur d)) →
        handlerTextColor.appendSql h ctx level buf
          = handlerTextColor.appendSql h (ctxDel ctx Duration) level buf)
    ∧ ((∀ sd, ctx Source ≠ some (CtxVal.src sd)) → Source ∉ h.addCxtAttr →
        handlerTextColor.Handle U h ctx r
          = handlerTextColor.Handle U h (ctxDel ctx Source) r)
    ∧ ((∀ k ∈ h.addCxtAttr, ctx k = none) →
        handlerTextColor.AddValueCtx h ctx buf = buf) := by
  refine ⟨?_, ?_, ?_, ?_⟩
  · intro hs
    unfold handlerTextColor.appendSql
    rw [hs]
  · intro hd
    have hS : ctxDel ctx Duration Sql = ctx Sql := by
      unfold ctxDel; rw [if_neg (by decide)]
    have hR : ctxDel ctx Duration Rows = ctx Rows := by
      unfold ctxDel; rw [if_neg (by decide)]
    have hD : ctxDel ctx Duration Duration = none := by
      unfold ctxDel; rw [if_pos rfl]
    unfold handlerTextColor.appendSql
    rw [hS, hR, hD]
    cases hsql : ctx Sql with
    | none => rfl
    | some s =>
      cases hdur : ctx Duration with
      | none => rfl
      | some v =>
        cases v with
        | dur d => exact absurd hdur (hd d)
        | str a => rfl
        | int a => rfl
        | src a => rfl
        | other a => rfl
  · intro hs hmem
    have hdel : ctxDel ctx Source Source = none := by
      unfold ctxDel; rw [if_pos rfl]
    have hAdd : ∀ b, handlerTextColor.AddValueCtx h (ctxDel ctx Source) b
        = handlerTextColor.AddValueCtx h ctx b := by
      intro b
      unfold handlerTextColor.AddValueCtx
      refine addCtxLoop_congr h _ _ _ ?_ b
      intro kk hk
      unfold ctxDel
      rw [if_neg (fun he : kk = Source => hmem (he ▸ hk))]
    have hSqlC : ∀ b, handlerTextColor.appendSql h (ctxDel ctx Source) r.level b
        = handlerTextColor.appendSql h ctx r.level b := by
      intro b
      refine appendSql_congr h _ _ ?_ ?_ ?_ r.level b
      · unfold ctxDel; rw [if_neg (by decide)]
      · unfold ctxDel; rw [if_neg (by decide)]
      · unfold ctxDel; rw [if_neg (by decide)]
    unfold handlerTextColor.Handle handlerTextColor.renderBody
    rw [hdel]
    simp only [hAdd, hSqlC]
  · intro habs
    unfold handlerTextColor.AddValueCtx
    exact addCtxLoop_absent h ctx _ habs buf

/-- C6 (witness): the theorem applied at concrete handlers, records
and contexts — an empty context for the absence conjuncts, and a
context holding a string under `Duration` and an integer under
`Source` for the wrong-type conjuncts. -/
theorem missing_or_malformed_ctx_omitted_witness :
    (handlerTextColor.appendSql
        (NewDevHandler { AddCxtAttr := ["x"], W := 0, Source := true, SlowThreshold := 0 })
        (fun _ => none) 0 "x" = "x")
    ∧ (handlerTextColor.appendSql
        (NewDevHandler { AddCxtAttr := ["x"], W := 0, Source := true, SlowThreshold := 0 })
        (fun k => if k = Sql then some (CtxVal.str "S")
                  else if k = Duration then some (CtxVal.str "bad")
                  else if k = Source then some (CtxVal.int 3) else none) 0 ""
      = handlerTextColor.appendSql
        (NewDevHandler { AddCxtAttr := ["x"], W := 0, Source := true, SlowThreshold := 0 })
        (ctxDel (fun k => if k = Sql then some (CtxVal.str "S")
                  else if k = Duration then some (CtxVal.str "bad")
                  else if k = Source then some (CtxVal.int 3) else none) Duration) 0 "")
    ∧ (handlerTextColor.Handle asciiTab
        (NewDevHandler { AddCxtAttr := ["x"], W := 0, Source := true, SlowThreshold := 0 })
        (fun k => if k = Sql then some (CtxVal.str "S")
                  else if k = Duration then some (CtxVal.str "bad")
                  else if k = Source then some (CtxVal.int 3) else none)
        { time := none, level := 0, message := "", frame := none, attrs := [] }
      = handlerTextColor.Handle asciiTab
        (NewDevHandler { AddCxtAttr := ["x"], W := 0, Source := true, SlowThreshold := 0 })
        (ctxDel (fun k => if k = Sql then some (CtxVal.str "S")
                  else if k = Duration then some (CtxVal.str "bad")
                  else if k = Source then some (CtxVal.int 3) else none) Source)
        { time := none, level := 0, message := "", frame := none, attrs := [] })
    ∧ (handlerTextColor.AddValueCtx
        (NewDevHandler { AddCxtAttr := ["x"], W := 0, Source := true, SlowThreshold := 0 })
        (fun _ => none) "y" = "y") :=
  ⟨(missing_or_malformed_ctx_omitted asciiTab
      (NewDevHandler { AddCxtAttr := ["x"], W := 0, Source := true, SlowThreshold := 0 })
      (fun _ => none) 0 "x"
      { time := none, level := 0, message := "", frame := none, attrs := [] }).1 rfl,
   (missing_or_malformed_ctx_omitted asciiTab
      (NewDevHandler { AddCxtAttr := ["x"], W := 0, Source := true, SlowThreshold := 0 })
      (fun k => if k = Sql then some (CtxVal.str "S")
                else if k = Duration then some (CtxVal.str "bad")
                else if k = Source then some (CtxVal.int 3) else none) 0 ""
      { time := none, level := 0, message := "", frame := none, attrs := [] }).2.1
      (fun d hd => CtxVal.noConfusion (Option.some.inj hd)),
   (missing_or_malformed_ctx_omitted asciiTab
      (NewDevHandler { AddCxtAttr := ["x"], W := 0, Source := true, SlowThreshold := 0 })
      (fun k => if k = Sql then some (CtxVal.str "S")
                else if k = Duration then some (CtxVal.str "bad")
                else if k = Source then some (CtxVal.int 3) else none) 0 ""
      { time := none, level := 0, message := "", frame := none, attrs := [] }).2.2.1
      (fun sd hsd => CtxVal.noConfusion (Option.some.inj hsd)) (by decide),
   (missing_or_malformed_ctx_omitted asciiTab
      (NewDevHandler { AddCxtAttr := ["x"], W := 0, Source := true, SlowThreshold := 0 })
      (fun _ => none) 0 "y"
      { time := none, level := 0, message := "", frame := none, attrs := [] }).2.2.2
      (fun k _ => rfl)⟩

/-- C9. For non-empty group names `a` and `b`, the handler
`h.WithGroup(a).WithGroup(b)` has group prefix
`h.groupPrefix ++ "a." ++ "b."` (composition by concatenation with a
dot after each name), and an attribute it renders gets its key
prefixed with that composed prefix. -/
theorem group_prefix_composition (U : UTab) (h : handlerTextColor) (a b k buf : String)
    (n : Int) (ha : a ≠ "") (hb : b ≠ "") :
    ((h.WithGroup a).WithGroup b).groupPrefix = h.groupPrefix ++ a ++ "." ++ b ++ "."
    ∧ handlerTextColor.appendAttr U ((h.WithGroup a).WithGroup b) buf (k, Value.int64 n)
        ((h.WithGroup a).WithGroup b).groupPrefix ((h.WithGroup a).WithGroup b).groups
      = buf ++ Faint ++ (h.groupPrefix ++ a ++ "." ++ b ++ "." ++ k) ++ "=" ++ Reset
        ++ toString n ++ " " := by
  have hga : (h.WithGroup a).groupPrefix = h.groupPrefix ++ a ++ "." := by
    unfold handlerTextColor.WithGroup
    rw [if_neg ha]
    rfl
  have hg2 : ((h.WithGroup a).WithGroup b).groupPrefix
      = h.groupPrefix ++ a ++ "." ++ b ++ "." := by
    unfold handlerTextColor.WithGroup
    rw [if_neg hb, if_neg ha]
    rfl
  refine ⟨hg2, ?_⟩
  rw [hg2]
  simp only [handlerTextColor.appendAttr, isZeroAttr, Value.isNilAny, Bool.and_false,
    Bool.if_false_left]
  simp [appendKey_eq, handlerTextColor.appendValue, String.append_assoc]

/-- C9 (witness): the theorem applied at a concrete handler with
groups `"a"` and `"b"` and attribute `k = 5`. -/
theorem group_prefix_composition_witness :
    (((NewDevHandler { AddCxtAttr := [], W := 0, Source := false, SlowThreshold := 0 }).WithGroup "a").WithGroup "b").groupPrefix
      = (NewDevHandler { AddCxtAttr := [], W := 0, Source := false, SlowThreshold := 0 }).groupPrefix ++ "a" ++ "." ++ "b" ++ "."
    ∧ handlerTextColor.appendAttr asciiTab
        (((NewDevHandler { AddCxtAttr := [], W := 0, Source := false, SlowThreshold := 0 }).WithGroup "a").WithGroup "b")
        "" ("k", Value.int64 5)
        (((NewDevHandler { AddCxtAttr := [], W := 0, Source := false, SlowThreshold := 0 }).WithGroup "a").WithGroup "b").groupPrefix
        (((NewDevHandler { AddCxtAttr := [], W := 0, Source := false, SlowThreshold := 0 }).WithGroup "a").WithGroup "b").groups
      = "" ++ Faint
        ++ ((NewDevHandler { AddCxtAttr := [], W := 0, Source := false, SlowThreshold := 0 }).groupPrefix ++ "a" ++ "." ++ "b" ++ "." ++ "k")
        ++ "=" ++ Reset ++ toString (5 : Int) ++ " " :=
  group_prefix_composition asciiTab
    (NewDevHandler { AddCxtAttr := [], W := 0, Source := false, SlowThreshold := 0 })
    "a" "b" "k" "" 5 (by decide) (by decide)

end SlogGorm
